import Mathlib

/-!
Verification of the multi-model detection correlation and annotation engine
of `detection.py` (function `run`).

The engine consumes three bounding-box lists produced per frame — full solar
panels (`pred_full_solar_modules`), single modules (`pred_single_solar_modules`)
and faults (`pred_fault_solar_modules`, with confidences
`prob_fault_solar_modules`) — and correlates modules and faults to panels by a
strict midpoint-in-box test, drawing the results onto several raster layers.

Coordinates and confidences are embedded as rationals; boxes are the 4-tuples
`[x1, y1, x2, y2]` the source stores as Python lists.  Drawing on the persisted
anomaly image is embedded as an explicit trace of draw operations, and the
in-loop display images as an explicit two-slot store that records the aliasing
`temp, temp2 = img, img` of the source.
-/

namespace SolarDetection

/-- A bounding box `[x1, y1, x2, y2]`, as appended to the prediction lists
(`pred_*_solar_modules.append([float(x1), float(y1), float(x2), float(y2)])`). -/
structure Box where
  x1 : ℚ
  y1 : ℚ
  x2 : ℚ
  y2 : ℚ
deriving DecidableEq, Repr

/-- Midpoint x-coordinate: `(box[0] + box[2]) / 2` (lines 325 and 335). -/
def midX (b : Box) : ℚ := (b.x1 + b.x2) / 2

/-- Midpoint y-coordinate: `(box[1] + box[3]) / 2` (lines 325 and 335). -/
def midY (b : Box) : ℚ := (b.y1 + b.y2) / 2

/-- The containment test of lines 326 and 336:
`mx > panel[0] and mx < panel[2] and my > panel[1] and my < panel[3]`. -/
def containsPoint (panel : Box) (mx my : ℚ) : Bool :=
  decide (mx > panel.x1) && decide (mx < panel.x2) &&
    decide (my > panel.y1) && decide (my < panel.y2)

/-- Containment of a detection `d` in a panel: the test of lines 326/336
applied to the midpoint of `d`. -/
def containsMid (panel d : Box) : Bool :=
  containsPoint panel (midX d) (midY d)

theorem containsMid_eq_true_iff (p d : Box) :
    containsMid p d = true ↔
      (p.x1 < midX d ∧ midX d < p.x2 ∧ p.y1 < midY d ∧ midY d < p.y2) := by
  simp [containsMid, containsPoint, and_assoc]

/-- Claim C5: the containment test is the strict interior test
`x1 < mx < x2 and y1 < my < y2`; a detection whose midpoint lies exactly on a
panel edge is not assigned to that panel. -/
theorem midpoint_on_edge_not_contained (p d : Box)
    (h : midX d = p.x1 ∨ midX d = p.x2 ∨ midY d = p.y1 ∨ midY d = p.y2) :
    containsMid p d = false := by
  rw [← Bool.not_eq_true, containsMid_eq_true_iff]
  rcases h with h | h | h | h <;>
    · intro hc
      obtain ⟨h1, h2, h3, h4⟩ := hc
      simp [h] at h1 h2 h3 h4

/-- Witness for C5: the spec scenario — fault box `(90,40,110,60)` has midpoint
exactly `(100,50)`, on the right edge of panel `(0,0,100,100)`, and is not
contained. -/
theorem midpoint_on_edge_not_contained_witness :
    midX ⟨90, 40, 110, 60⟩ = (100 : ℚ) ∧
      containsMid ⟨0, 0, 100, 100⟩ ⟨90, 40, 110, 60⟩ = false :=
  ⟨by norm_num [midX],
   midpoint_on_edge_not_contained ⟨0, 0, 100, 100⟩ ⟨90, 40, 110, 60⟩
     (Or.inr (Or.inl (by norm_num [midX])))⟩

/-- Claim C8: a box with positive width and height strictly contains its own
midpoint; a degenerate box (zero width or zero height) does not. -/
theorem contains_own_midpoint (b : Box) (_hx : b.x1 ≤ b.x2) (_hy : b.y1 ≤ b.y2) :
    (b.x1 < b.x2 → b.y1 < b.y2 → containsMid b b = true) ∧
      ((b.x1 = b.x2 ∨ b.y1 = b.y2) → containsMid b b = false) := by
  constructor
  · intro hwx hwy
    rw [containsMid_eq_true_iff]
    refine ⟨?_, ?_, ?_, ?_⟩ <;> · simp only [midX, midY]; linarith
  · intro h
    rw [← Bool.not_eq_true, containsMid_eq_true_iff]
    intro hc
    obtain ⟨h1, h2, h3, h4⟩ := hc
    simp only [midX, midY] at h1 h2 h3 h4
    rcases h with h | h
    · rw [h] at h1 h2; linarith
    · rw [h] at h3 h4; linarith

/-- Witness for C8: the box `(0,0,100,100)` contains its own midpoint, and the
degenerate box `(5,5,5,9)` (zero width) does not. -/
theorem contains_own_midpoint_witness :
    containsMid ⟨0, 0, 100, 100⟩ ⟨0, 0, 100, 100⟩ = true ∧
      containsMid ⟨5, 5, 5, 9⟩ ⟨5, 5, 5, 9⟩ = false :=
  ⟨(contains_own_midpoint ⟨0, 0, 100, 100⟩ (by norm_num) (by norm_num)).1
      (by norm_num) (by norm_num),
   (contains_own_midpoint ⟨5, 5, 5, 9⟩ (by norm_num) (by norm_num)).2
      (Or.inl rfl)⟩

/-! ### Sorting of the detection lists (lines 307–308)

Boxes are stored as the Python lists `[x1, y1, x2, y2]`, and `list.sort()`
orders them by Python's lexicographic list comparison.  `listLexLe` is that
comparison; Python's sort is a stable sort by it, which is the same function
as `List.mergeSort` with this comparator (a stable sort by a total preorder
is unique). -/

/-- Python lexicographic `<=` on lists of floats (here rationals). -/
def listLexLe : List ℚ → List ℚ → Bool
  | [], _ => true
  | _ :: _, [] => false
  | a :: as, b :: bs => if a < b then true else if b < a then false else listLexLe as bs

theorem listLexLe_total : ∀ as bs : List ℚ, (listLexLe as bs || listLexLe bs as) = true
  | [], _ => by simp [listLexLe]
  | _ :: _, [] => by simp [listLexLe]
  | a :: as, b :: bs => by
    simp only [listLexLe]
    rcases lt_trichotomy a b with h | h | h
    · simp [h]
    · subst h
      simpa [lt_irrefl] using listLexLe_total as bs
    · simp [h, not_lt.mpr h.le]

theorem listLexLe_trans : ∀ as bs cs : List ℚ,
    listLexLe as bs = true → listLexLe bs cs = true → listLexLe as cs = true
  | [], _, _ => by simp [listLexLe]
  | _ :: _, [], _ => by simp [listLexLe]
  | _ :: _, _ :: _, [] => by simp [listLexLe]
  | a :: as, b :: bs, c :: cs => by
    simp only [listLexLe]
    intro h1 h2
    by_cases hab : a < b
    · by_cases hbc : b < c
      · simp [lt_trans hab hbc]
      · by_cases hcb : c < b
        · simp [hbc, hcb] at h2
        · have hbc' : b = c := le_antisymm (not_lt.mp hcb) (not_lt.mp hbc)
          have hac : a < c := hbc' ▸ hab
          simp [hac]
    · by_cases hba : b < a
      · simp [hab, hba] at h1
      · have hba' : a = b := le_antisymm (not_lt.mp hba) (not_lt.mp hab)
        subst hba'
        simp only [lt_irrefl, if_false] at h1 ⊢
        by_cases hac : a < c
        · simp [hac]
        · by_cases hca : c < a
          · simp [hac, hca] at h2
          · have hca' : a = c := le_antisymm (not_lt.mp hca) (not_lt.mp hac)
            subst hca'
            simp only [lt_irrefl, if_false] at h1 h2 ⊢
            exact listLexLe_trans as bs cs h1 h2

/-- The sort key of `pred_single_solar_modules.sort()` and
`pred_full_solar_modules.sort()`: lexicographic comparison of the box lists. -/
def boxLE (a b : Box) : Bool :=
  listLexLe [a.x1, a.y1, a.x2, a.y2] [b.x1, b.y1, b.x2, b.y2]

theorem boxLE_trans (a b c : Box) : boxLE a b → boxLE b c → boxLE a c :=
  listLexLe_trans _ _ _

theorem boxLE_total (a b : Box) : (boxLE a b || boxLE b a) = true :=
  listLexLe_total _ _

/-- Lines 307–308, immediately before the correlation loop:
`pred_single_solar_modules.sort()` and `pred_full_solar_modules.sort()` are
executed, while `pred_fault_solar_modules` is never sorted.  The triple is the
(panel, module, fault) lists handed to the correlation loop. -/
def prepareCorrelationLists (pred_full pred_single pred_fault : List Box) :
    List Box × List Box × List Box :=
  (pred_full.mergeSort boxLE, pred_single.mergeSort boxLE, pred_fault)

/-- Claim C4 (amended): before correlation, the panel list and the module list
are sorted ascending by the lexicographic order on `(x1,y1,x2,y2)` by a stable
sort (permutation of the input, pairs already in order keep their relative
order), but the fault list is handed to correlation exactly as built, without
sorting. -/
theorem correlation_lists_sorting (pf ps pfl : List Box) :
    List.Pairwise (fun a b => boxLE a b = true) (prepareCorrelationLists pf ps pfl).1 ∧
    List.Pairwise (fun a b => boxLE a b = true) (prepareCorrelationLists pf ps pfl).2.1 ∧
    (prepareCorrelationLists pf ps pfl).1.Perm pf ∧
    (prepareCorrelationLists pf ps pfl).2.1.Perm ps ∧
    (∀ a b : Box, boxLE a b = true → List.Sublist [a, b] pf →
        List.Sublist [a, b] (prepareCorrelationLists pf ps pfl).1) ∧
    (∀ a b : Box, boxLE a b = true → List.Sublist [a, b] ps →
        List.Sublist [a, b] (prepareCorrelationLists pf ps pfl).2.1) ∧
    (prepareCorrelationLists pf ps pfl).2.2 = pfl := by
  refine ⟨?_, ?_, ?_, ?_, ?_, ?_, rfl⟩
  · exact List.sorted_mergeSort boxLE_trans boxLE_total pf
  · exact List.sorted_mergeSort boxLE_trans boxLE_total ps
  · exact List.mergeSort_perm pf boxLE
  · exact List.mergeSort_perm ps boxLE
  · intro a b hab h
    exact List.pair_sublist_mergeSort boxLE_trans boxLE_total hab h
  · intro a b hab h
    exact List.pair_sublist_mergeSort boxLE_trans boxLE_total hab h

/-- Witness for C4 (amended): concrete instantiation of the sorting theorem. -/
theorem correlation_lists_sorting_witness :
    (prepareCorrelationLists [⟨1, 0, 2, 2⟩] [⟨0, 0, 1, 1⟩] [⟨3, 3, 4, 4⟩]).2.2
        = [⟨3, 3, 4, 4⟩] ∧
      (prepareCorrelationLists [⟨1, 0, 2, 2⟩] [⟨0, 0, 1, 1⟩] [⟨3, 3, 4, 4⟩]).1.Perm
        [⟨1, 0, 2, 2⟩] :=
  ⟨(correlation_lists_sorting [⟨1, 0, 2, 2⟩] [⟨0, 0, 1, 1⟩] [⟨3, 3, 4, 4⟩]).2.2.2.2.2.2,
   (correlation_lists_sorting [⟨1, 0, 2, 2⟩] [⟨0, 0, 1, 1⟩] [⟨3, 3, 4, 4⟩]).2.2.1⟩

/-- Counterexample to C4 as stated: the fault list reaches the correlation
loop unsorted — with fault boxes `[(10,0,20,20), (0,0,5,5)]` the third
prepared list is exactly that out-of-order list. -/
theorem fault_list_not_sorted_cex :
    (prepareCorrelationLists [] [] [⟨10, 0, 20, 20⟩, ⟨0, 0, 5, 5⟩]).2.2
        = [⟨10, 0, 20, 20⟩, ⟨0, 0, 5, 5⟩] ∧
      ¬ List.Pairwise (fun a b : Box => boxLE a b = true)
          [⟨10, 0, 20, 20⟩, ⟨0, 0, 5, 5⟩] := by
  refine ⟨rfl, ?_⟩
  have hb : boxLE ⟨10, 0, 20, 20⟩ ⟨0, 0, 5, 5⟩ = false := by
    norm_num [boxLE, listLexLe]
  simp [List.pairwise_cons, hb]

/-! ### The correlation loops (lines 313–354) -/

/-- The shape shared by the module loop (lines 324–332) and the fault loop
(lines 334–351): for each panel `pred_full_solar_modules[im]`, in list order,
every detection of `dets` whose midpoint the panel strictly contains is
processed for that panel.  Nothing breaks out of the scan after a match (the
only `break` is behind an interactive `cv2.waitKey(1)` keypress), so the
result pairs each panel with all detections it contains. -/
def containedPerPanel (panels dets : List Box) : List (Box × List Box) :=
  panels.map (fun p => (p, dets.filter (fun d => containsMid p d)))

/-- Claim C1 (amended): there is no first-match tie-break — a module or fault
detection is processed for every panel whose box strictly contains its
midpoint, so the number of panel records holding the detection equals the
number of containing panels (not at most one). -/
theorem detection_in_every_containing_panel_record
    (panels dets : List Box) (d : Box) (hd : d ∈ dets) :
    (containedPerPanel panels dets).countP (fun pr => decide (d ∈ pr.2))
      = panels.countP (fun p => containsMid p d) := by
  induction panels with
  | nil => rfl
  | cons p ps ih =>
    simp only [containedPerPanel, List.map_cons, List.countP_cons] at ih ⊢
    rw [ih]
    congr 1
    have hmem : d ∈ dets.filter (fun x => containsMid p x) ↔ containsMid p d = true := by
      simp [List.mem_filter, hd]
    by_cases hc : containsMid p d = true
    · simp [hc, hmem.mpr hc]
    · simp only [Bool.not_eq_true] at hc
      simp [hc, hmem]

/-- Witness for C1 (amended): the module `(60,40,80,60)` lies in both
overlapping panels `(0,0,100,100)` and `(50,0,150,100)`. -/
theorem detection_in_every_containing_panel_record_witness :
    ((⟨60, 40, 80, 60⟩ : Box) ∈ ([⟨60, 40, 80, 60⟩] : List Box)) ∧
      (containedPerPanel [⟨0, 0, 100, 100⟩, ⟨50, 0, 150, 100⟩]
            [⟨60, 40, 80, 60⟩]).countP
          (fun pr => decide ((⟨60, 40, 80, 60⟩ : Box) ∈ pr.2))
        = ([⟨0, 0, 100, 100⟩, ⟨50, 0, 150, 100⟩] : List Box).countP
            (fun p => containsMid p ⟨60, 40, 80, 60⟩) :=
  ⟨List.mem_singleton.mpr rfl,
   detection_in_every_containing_panel_record _ _ _ (List.mem_singleton.mpr rfl)⟩

/-- Counterexample to C1 as stated: the module `(60,40,80,60)` has its midpoint
`(70,50)` strictly inside both panels `(0,0,100,100)` and `(50,0,150,100)`,
and it ends up in the sub-collection of BOTH panel records (count 2, not 1):
the scan does not stop at the first match. -/
theorem first_match_tiebreak_cex :
    containsMid ⟨0, 0, 100, 100⟩ ⟨60, 40, 80, 60⟩ = true ∧
      containsMid ⟨50, 0, 150, 100⟩ ⟨60, 40, 80, 60⟩ = true ∧
      (containedPerPanel [⟨0, 0, 100, 100⟩, ⟨50, 0, 150, 100⟩]
            [⟨60, 40, 80, 60⟩]).countP
          (fun pr => decide ((⟨60, 40, 80, 60⟩ : Box) ∈ pr.2)) = 2 := by
  have h1 : containsMid ⟨0, 0, 100, 100⟩ ⟨60, 40, 80, 60⟩ = true := by
    rw [containsMid_eq_true_iff]; norm_num [midX, midY]
  have h2 : containsMid ⟨50, 0, 150, 100⟩ ⟨60, 40, 80, 60⟩ = true := by
    rw [containsMid_eq_true_iff]; norm_num [midX, midY]
  refine ⟨h1, h2, ?_⟩
  simp [containedPerPanel, List.countP_cons, List.filter, h1, h2]

/-! ### The fault confidence label (lines 348–349) -/

/-- Python `int()` truncation toward zero, as applied in
`int(prob_fault_solar_modules[ml] * 10000)` (lines 348–349). -/
def pyInt (q : ℚ) : ℤ := if 0 ≤ q then ⌊q⌋ else ⌈q⌉

/-- The numeric value written before `"%"` in the fault label of lines
348–349: `(int(prob * 10000)) / 100` (true division in Python 3). -/
def faultLabelValue (prob : ℚ) : ℚ := (pyInt (prob * 10000) : ℚ) / 100

/-- Modelled from the spec words of claim C2, for comparison with
`faultLabelValue`: `round(score*10000)/100`, rounding the scaled score to the
nearest integer. -/
def specRoundLabelValue (prob : ℚ) : ℚ := (round (prob * 10000) : ℚ) / 100

/-- Claim C2 (amended): the label value truncates instead of rounding — for a
score `0 ≤ p` the value drawn before `"%"` is `⌊p·10000⌋/100`, the percentage
`100·p` cut down to two decimals: at most `100·p`, and within `1/100` below
it. -/
theorem fault_label_value_truncated (p : ℚ) (hp : 0 ≤ p) :
    faultLabelValue p = ((⌊p * 10000⌋ : ℤ) : ℚ) / 100 ∧
      faultLabelValue p ≤ 100 * p ∧
      100 * p - 1 / 100 < faultLabelValue p := by
  have h0 : (0 : ℚ) ≤ p * 10000 := by positivity
  have heq : faultLabelValue p = ((⌊p * 10000⌋ : ℤ) : ℚ) / 100 := by
    unfold faultLabelValue pyInt
    rw [if_pos h0]
  refine ⟨heq, ?_, ?_⟩
  · rw [heq]
    have := Int.floor_le (p * 10000)
    linarith
  · rw [heq]
    have := Int.sub_one_lt_floor (p * 10000)
    linarith

/-- Witness for C2 (amended): at score `1/2` the hypothesis holds and the
label value is bounded by the true percentage. -/
theorem fault_label_value_truncated_witness :
    (0 : ℚ) ≤ 1 / 2 ∧ faultLabelValue (1 / 2) ≤ 100 * (1 / 2 : ℚ) :=
  ⟨by norm_num, (fault_label_value_truncated (1 / 2) (by norm_num)).2.1⟩

/-- Counterexample to C2 as stated: at score `24999/25000 = 0.99995` the
scaled score is `9999.6`; `int()` truncates it to `9999`, giving the label
value `99.99`, while rounding to the nearest integer would give `10000` and
the label value `100`. -/
theorem fault_label_rounding_cex :
    faultLabelValue (24999 / 25000) = 9999 / 100 ∧
      specRoundLabelValue (24999 / 25000) = 100 ∧
      faultLabelValue (24999 / 25000) ≠ specRoundLabelValue (24999 / 25000) := by
  have hfloor : ⌊(24999 / 25000 : ℚ) * 10000⌋ = 9999 := by
    rw [Int.floor_eq_iff]
    norm_num
  have hround : round ((24999 / 25000 : ℚ) * 10000) = 10000 := by
    rw [round_eq, Int.floor_eq_iff]
    norm_num
  have h1 : faultLabelValue (24999 / 25000) = 9999 / 100 := by
    unfold faultLabelValue pyInt
    rw [if_pos (by norm_num), hfloor]
    norm_num
  have h2 : specRoundLabelValue (24999 / 25000) = 100 := by
    unfold specRoundLabelValue
    rw [hround]
    norm_num
  exact ⟨h1, h2, by rw [h1, h2]; norm_num⟩

/-! ### The persisted module layer (lines 285–309 and 357–364) -/

/-- One detector output row `(*xyxy, conf, cls)` as consumed in the write
loops. -/
structure Det where
  box : Box
  conf : ℚ
  cls : ℤ
deriving DecidableEq, Repr

/-- Lines 285–305, the single-module write loop: for each row of
`reversed(det)` the box is appended to `pred_single_solar_modules`, and —
whenever `save_img or save_crop or view_img` holds — drawn onto the annotator
image that becomes `im0` (line 309).  Result: the module boxes drawn on that
image. -/
def singleLoopDrawnBoxes (save_img save_crop view_img : Bool) (det : List Det) :
    List Box :=
  if save_img || save_crop || view_img then det.reverse.map (fun d => d.box) else []

/-- Lines 357–364: when `save_img` holds (image mode), `im0` — the annotator
result carrying exactly the boxes of `singleLoopDrawnBoxes` — is persisted
under the `_panel_block_detection` suffix. -/
def persistedPanelBlockBoxes (save_img save_crop view_img : Bool) (det : List Det) :
    Option (List Box) :=
  if save_img then some (singleLoopDrawnBoxes save_img save_crop view_img det) else none

/-- Claim C3 (amended): the persisted `_panel_block_detection` layer carries
EVERY module detection's box, with no panel-containment filter — the
containment-filtered module drawing of lines 324–329 happens only on the
transient display image `temp`, which is never saved. -/
theorem panel_block_layer_draws_all_modules
    (save_crop view_img : Bool) (det : List Det) (b : Box) :
    persistedPanelBlockBoxes true save_crop view_img det
        = some (singleLoopDrawnBoxes true save_crop view_img det) ∧
      (b ∈ singleLoopDrawnBoxes true save_crop view_img det ↔
        b ∈ det.map (fun d => d.box)) := by
  refine ⟨rfl, ?_⟩
  simp [singleLoopDrawnBoxes]

/-- Witness for C3 (amended): the sole module box is on the persisted layer. -/
theorem panel_block_layer_draws_all_modules_witness :
    (⟨0, 0, 10, 10⟩ : Box) ∈ singleLoopDrawnBoxes true false false
        [⟨⟨0, 0, 10, 10⟩, 1 / 2, 0⟩] :=
  (panel_block_layer_draws_all_modules false false [⟨⟨0, 0, 10, 10⟩, 1 / 2, 0⟩]
      ⟨0, 0, 10, 10⟩).2.mpr (by simp)

/-- Counterexample to C3 as stated: with saving enabled, the module
`(0,0,10,10)` (midpoint `(5,5)`) appears on the persisted
`_panel_block_detection` layer although the only panel, `(100,100,200,200)`,
does not contain it. -/
theorem module_drawn_without_containment_cex :
    persistedPanelBlockBoxes true false false [⟨⟨0, 0, 10, 10⟩, 1 / 2, 0⟩]
        = some [⟨0, 0, 10, 10⟩] ∧
      containsMid ⟨100, 100, 200, 200⟩ ⟨0, 0, 10, 10⟩ = false := by
  constructor
  · rfl
  · rw [← Bool.not_eq_true, containsMid_eq_true_iff]
    simp only [midX, midY]
    norm_num

/-! ### NMS thresholds of the three detector passes (lines 116, 186, 251) -/

/-- Line 116, the panel pass:
`non_max_suppression(pred, conf_thres, iou_thres, classes, agnostic_nms, ...)`
uses the thresholds `run` was called with. -/
def panelNMSThresholds (conf_thres iou_thres : ℚ) : ℚ × ℚ := (conf_thres, iou_thres)

/-- Line 186, the fault pass:
`non_max_suppression(pred, 0.01, 0.01, None, False, ...)` — constants. -/
def faultNMSThresholds (_conf_thres _iou_thres : ℚ) : ℚ × ℚ := (0.01, 0.01)

/-- Line 251, the single-module pass:
`non_max_suppression(pred, 0.01, 0.01, None, False, ...)` — constants. -/
def singleNMSThresholds (_conf_thres _iou_thres : ℚ) : ℚ × ℚ := (0.01, 0.01)

/-- Claim C9: across any two runs that differ only in the caller-supplied
thresholds, the fault-pass and module-pass NMS filtering is identical — both
always use the constants `0.01, 0.01`; only the panel pass sees the caller's
thresholds. -/
theorem nms_constant_thresholds (ct it ct' it' : ℚ) :
    faultNMSThresholds ct it = faultNMSThresholds ct' it' ∧
      singleNMSThresholds ct it = singleNMSThresholds ct' it' ∧
      faultNMSThresholds ct it = (1 / 100, 1 / 100) ∧
      singleNMSThresholds ct it = (1 / 100, 1 / 100) ∧
      panelNMSThresholds ct it = (ct, it) :=
  ⟨rfl, rfl, by norm_num [faultNMSThresholds], by norm_num [singleNMSThresholds], rfl⟩

/-! ### The duplicated single-module inference (lines 242–251) -/

/-- Lines 242–248: per frame, `model_single` is invoked twice in direct
succession with identical arguments, the first `pred` being overwritten
unused; line 251 then applies NMS to the second result.  The detector has no
per-call mutable state, so it is embedded as a function of its input. -/
def singleModulePassTwice {α β γ : Type _} (model_single : α → β) (nms : β → γ)
    (im : α) : γ :=
  let pred := model_single im
  let pred := model_single im
  nms pred

/-- The variant pipeline stage with the first, unused invocation removed. -/
def singleModulePassOnce {α β γ : Type _} (model_single : α → β) (nms : β → γ)
    (im : α) : γ :=
  nms (model_single im)

/-- Claim C10: removing the first of the two back-to-back `model_single`
invocations changes nothing downstream — any continuation of the pipeline
(the detection lists, layers and return value are all functions of the NMS
output) receives the same value. -/
theorem duplicate_model_single_call_redundant {α β γ δ : Type _}
    (model_single : α → β) (nms : β → γ) (downstream : γ → δ) (im : α) :
    downstream (singleModulePassTwice model_single nms im)
      = downstream (singleModulePassOnce model_single nms im) := rfl

/-! ### The display and anomaly rasters (lines 311–351)

Per panel iteration the source sets up (lines 311–315)
`img_detection = cv2.imread(path).copy()` — an independent copy — and
`img = cv2.imread(path)` followed by `temp, temp2 = img, img`, which binds the
names `temp` and `temp2` to the one array `img`.  The state below holds the
two distinct arrays; `temp` and `temp2` reproduce the name binding. -/

/-- A raster image: a color triple per integer pixel coordinate. -/
def Image : Type := ℤ → ℤ → ℕ × ℕ × ℕ

/-- `cv2.rectangle(img, (x1,y1), (x2,y2), color, -1)`: fill every pixel of the
axis-aligned rectangle with the color. -/
def fillRectImg (x1 y1 x2 y2 : ℤ) (c : ℕ × ℕ × ℕ) (img : Image) : Image :=
  fun x y => if x1 ≤ x ∧ x ≤ x2 ∧ y1 ≤ y ∧ y ≤ y2 then c else img x y

/-- The two arrays alive in one panel iteration: the array shared by the
names `temp` and `temp2`, and the separate `img_detection` copy. -/
structure LayerState where
  sharedArr : Image
  imgDetectionArr : Image

/-- The name `temp` of line 315: the shared array. -/
def temp (s : LayerState) : Image := s.sharedArr

/-- The name `temp2` of line 315: the same shared array. -/
def temp2 (s : LayerState) : Image := s.sharedArr

/-- Lines 311–315 before any drawing: both display names and the detection
copy start from the freshly read base raster. -/
def initLayers (base : Image) : LayerState := ⟨base, base⟩

/-- Line 337: `cv2.rectangle(temp2, panel, (0,0,255), -1)` — the filled panel
highlight of the fault branch, written through the name `temp2`. -/
def fillPanelOnTemp2 (panel : Box) (s : LayerState) : LayerState :=
  LayerState.mk
    (fillRectImg (pyInt panel.x1) (pyInt panel.y1) (pyInt panel.x2) (pyInt panel.y2)
      (0, 0, 255) s.sharedArr)
    s.imgDetectionArr

/-- Line 340: `cv2.rectangle(img_detection, panel, (0,0,255), -1)`. -/
def fillPanelOnImgDetection (panel : Box) (s : LayerState) : LayerState :=
  LayerState.mk
    s.sharedArr
    (fillRectImg (pyInt panel.x1) (pyInt panel.y1) (pyInt panel.x2) (pyInt panel.y2)
      (0, 0, 255) s.imgDetectionArr)

/-- Claim C6 (amended): only `img_detection` is an independent copy — drawing
through `temp2` never changes `img_detection` and vice versa — while `temp`
and `temp2` are two names for the same array, so a box drawn through one is
visible through the other. -/
theorem layer_independence_and_aliasing (s : LayerState) (panel : Box) :
    temp s = temp2 s ∧
      (fillPanelOnTemp2 panel s).imgDetectionArr = s.imgDetectionArr ∧
      (fillPanelOnImgDetection panel s).sharedArr = s.sharedArr ∧
      temp (fillPanelOnTemp2 panel s) = temp2 (fillPanelOnTemp2 panel s) :=
  ⟨rfl, rfl, rfl, rfl⟩

/-- Counterexample to C6 as stated: from the constant-`(7,7,7)` base raster,
drawing the filled panel `(0,0,4,4)` through the anomaly-branch name `temp2`
(line 337) turns the pixel `(2,2)` seen through the module-layer name `temp`
red — the module and anomaly drawing targets are not independent copies. -/
theorem layer_aliasing_cex :
    temp (fillPanelOnTemp2 ⟨0, 0, 4, 4⟩ (initLayers (fun _ _ => (7, 7, 7)))) 2 2
        = (0, 0, 255) ∧
      temp (initLayers (fun _ _ => (7, 7, 7))) 2 2 = (7, 7, 7) := by
  have h0 : pyInt (0 : ℚ) = 0 := by simp [pyInt]
  have h4 : pyInt (4 : ℚ) = 4 := by simp [pyInt]
  constructor
  · simp only [temp, fillPanelOnTemp2, initLayers, fillRectImg, h0, h4]
    norm_num
  · rfl

/-! ### The anomaly layer trace (lines 334–351) -/

/-- One write to a raster. -/
inductive DrawOp where
  | fillRect : Box → ℕ × ℕ × ℕ → DrawOp
  | outlineRect : Box → ℕ × ℕ × ℕ → ℕ → DrawOp
  | putLabel : ℚ → ℤ × ℤ → DrawOp
deriving DecidableEq, Repr

/-- The writes applied to the persisted anomaly image `img_detection` for one
(panel, fault) pair of the fault loop (lines 334–349): when the panel
contains the fault's midpoint, the panel box is drawn filled red (line 340),
the fault box outlined (line 341), and the truncated-percentage label put at
`(int(x1)-30, int(y1)-1)` (line 349); otherwise nothing. -/
def anomalyOpsForFault (panel fault : Box) (prob : ℚ) : List DrawOp :=
  if containsMid panel fault then
    [DrawOp.fillRect panel (0, 0, 255),
     DrawOp.outlineRect fault (255, 255, 0) 5,
     DrawOp.putLabel (faultLabelValue prob) (pyInt fault.x1 - 30, pyInt fault.y1 - 1)]
  else []

/-- The fault loop (lines 334–351) for one panel: all `img_detection` writes,
in fault-list order. -/
def anomalyOpsForPanel (panel : Box) (faults : List (Box × ℚ)) : List DrawOp :=
  faults.flatMap (fun f => anomalyOpsForFault panel f.1 f.2)

/-- The panel loop (lines 313–354) restricted to its `img_detection` writes. -/
def anomalyLayerOps (panels : List Box) (faults : List (Box × ℚ)) : List DrawOp :=
  panels.flatMap (fun p => anomalyOpsForPanel p faults)

/-- Claim C7: on the persisted anomaly layer, a panel's box is drawn filled
iff at least one fault detection's midpoint is strictly contained in its box;
a panel all of whose containment tests fail contributes no write at all. -/
theorem panel_filled_iff_contains_fault (panels : List Box)
    (faults : List (Box × ℚ)) (p : Box) (hp : p ∈ panels) :
    (DrawOp.fillRect p (0, 0, 255) ∈ anomalyLayerOps panels faults ↔
        ∃ f ∈ faults, containsMid p f.1 = true) ∧
      ((∀ f ∈ faults, containsMid p f.1 = false) →
        anomalyOpsForPanel p faults = []) := by
  constructor
  · constructor
    · intro h
      rw [anomalyLayerOps, List.mem_flatMap] at h
      obtain ⟨q, _, hmem⟩ := h
      rw [anomalyOpsForPanel, List.mem_flatMap] at hmem
      obtain ⟨f, hf, hop⟩ := hmem
      rw [anomalyOpsForFault] at hop
      by_cases hc : containsMid q f.1
      · rw [if_pos hc] at hop
        simp only [List.mem_cons, List.not_mem_nil, or_false] at hop
        rcases hop with h1 | h1 | h1
        · injection h1 with hpq hcol
          subst hpq
          exact ⟨f, hf, hc⟩
        · exact DrawOp.noConfusion h1
        · exact DrawOp.noConfusion h1
      · rw [if_neg hc] at hop
        exact absurd hop (List.not_mem_nil _)
    · rintro ⟨f, hf, hc⟩
      rw [anomalyLayerOps, List.mem_flatMap]
      refine ⟨p, hp, ?_⟩
      rw [anomalyOpsForPanel, List.mem_flatMap]
      refine ⟨f, hf, ?_⟩
      rw [anomalyOpsForFault, if_pos hc]
      exact List.mem_cons_self _ _
  · intro hnone
    rw [anomalyOpsForPanel, List.flatMap_eq_nil_iff]
    intro f hf
    rw [anomalyOpsForFault, if_neg]
    simp [hnone f hf]

/-- Witness for C7: the spec scenario — panel `(0,0,100,100)` with fault
`(40,40,60,60)` (midpoint `(50,50)` inside) is drawn filled. -/
theorem panel_filled_iff_contains_fault_witness :
    DrawOp.fillRect ⟨0, 0, 100, 100⟩ (0, 0, 255)
        ∈ anomalyLayerOps [⟨0, 0, 100, 100⟩] [(⟨40, 40, 60, 60⟩, 1 / 2)] :=
  (panel_filled_iff_contains_fault [⟨0, 0, 100, 100⟩] [(⟨40, 40, 60, 60⟩, 1 / 2)]
      ⟨0, 0, 100, 100⟩ (List.mem_singleton.mpr rfl)).1.mpr
    ⟨(⟨40, 40, 60, 60⟩, 1 / 2), List.mem_singleton.mpr rfl, by
      rw [containsMid_eq_true_iff]
      norm_num [midX, midY]⟩

end SolarDetection
